/-
  Verification of the market-data / indicator engine of the trading-charts
  repository (src/app/components/CandlestickChart.tsx and the api/market
  route).  The TypeScript code is shallowly embedded: JavaScript numbers are
  modelled as rationals (ℚ), arrays as lists, `new Date(t)` as the raw
  timestamp `t`, thrown exceptions as `Except` errors.
-/
import Mathlib

/-- The candle record produced by the api/market route and consumed by the
chart component.  Mirrors `interface KlineData` (timestamp, open, high, low,
close, volume).  `open` is a Lean keyword, hence the field name `open_`. -/
structure KlineData where
  timestamp : ℤ
  open_ : ℚ
  high : ℚ
  low : ℚ
  close : ℚ
  volume : ℚ
  deriving DecidableEq, Inhabited

/-- A point of an emitted indicator series: the source pushes objects
`{x: new Date(ts), y: value}`; `x` is modelled by the raw timestamp. -/
structure IndicatorPoint where
  x : ℤ
  y : ℚ
  deriving DecidableEq, Inhabited

/-- The price-change array built at the top of `calculateRSI`:
`changes[j] = data[j+1].close - data[j].close` for `j = 0 .. length-2`. -/
def changesOf : List KlineData → List ℚ
  | a :: b :: rest => (b.close - a.close) :: changesOf (b :: rest)
  | _ => []

/-- The divisor used for RS in `calculateRSI`:
`avgLoss === 0 ? 0.001 : avgLoss` (the division-by-zero guard). -/
def rsiDivisor (avgLoss : ℚ) : ℚ :=
  if avgLoss = 0 then 0.001 else avgLoss

/-- `rsi = 100 - 100 / (1 + rs)` with `rs = avgGain / rsiDivisor avgLoss`,
exactly as computed at lines 191-192 and 208-209 of the source. -/
def rsiValue (avgGain avgLoss : ℚ) : ℚ :=
  100 - 100 / (1 + avgGain / rsiDivisor avgLoss)

/-- One steady-state iteration of the Wilder smoothing loop:
`gain = change > 0 ? change : 0`, `loss = change < 0 ? |change| : 0`,
`avgGain = (avgGain*(period-1) + gain) / period` and analogously for
`avgLoss` (source lines 201-206). -/
def rsiStep (period : ℕ) (st : ℚ × ℚ) (change : ℚ) : ℚ × ℚ :=
  let gain : ℚ := if change > 0 then change else 0
  let loss : ℚ := if change < 0 then |change| else 0
  ((st.1 * ((period : ℚ) - 1) + gain) / (period : ℚ),
   (st.2 * ((period : ℚ) - 1) + loss) / (period : ℚ))

/-- The steady-state loop of `calculateRSI` (source lines 200-215): starting
at absolute change-index `i = period` with the seeded averages, each
remaining change updates the averages by `rsiStep` and pushes a point at
`data[i+1].timestamp`. -/
def rsiRest (period : ℕ) (data : List KlineData) :
    List ℚ → ℚ × ℚ → ℕ → List IndicatorPoint
  | [], _, _ => []
  | c :: cs, st, i =>
    let st' := rsiStep period st c
    { x := (data.getD (i + 1) default).timestamp,
      y := rsiValue st'.1 st'.2 } :: rsiRest period data cs st' (i + 1)

/-- `calculateRSI(data, period)` from the source: returns `[]` when
`data.length <= period`; otherwise seeds `avgGain`/`avgLoss` from the first
`period` changes (`changes[i] > 0` adds to the gain total, otherwise
`|changes[i]|` adds to the loss total, then both are divided by `period`),
pushes the first point at `data[period].timestamp`, and runs the Wilder
smoothing loop over the remaining changes. -/
def calculateRSI (data : List KlineData) (period : ℕ) : List IndicatorPoint :=
  if data.length ≤ period then []
  else
    let changes := changesOf data
    let avgGain : ℚ :=
      (((changes.take period).map (fun c => if c > 0 then c else 0)).sum) / (period : ℚ)
    let avgLoss : ℚ :=
      (((changes.take period).map (fun c => if c > 0 then 0 else |c|)).sum) / (period : ℚ)
    { x := (data.getD period default).timestamp,
      y := rsiValue avgGain avgLoss }
      :: rsiRest period data (changes.drop period) (avgGain, avgLoss) period

/-- The inner summation of the SMA loops:
`sum += marketData[i - j].close` for `j = 0 .. period-1`. -/
def smaWindowSum (data : List KlineData) (period i : ℕ) : ℚ :=
  ((List.range period).map (fun j => (data.getD (i - j) default).close)).sum

/-- The SMA loop of the chart `useEffect`: for `i = period-1` to
`data.length - 1` push `{x: data[i].timestamp, y: windowSum / period}`
(source lines 118-142, with `period` = 20 and 50). -/
def smaSeries (data : List KlineData) (period : ℕ) : List IndicatorPoint :=
  (List.range' (period - 1) (data.length - (period - 1))).map (fun i =>
    { x := (data.getD i default).timestamp,
      y := smaWindowSum data period i / (period : ℚ) })

/-- The `sma20` array computed in the `useEffect` (source lines 118-129). -/
def sma20 (data : List KlineData) : List IndicatorPoint :=
  smaSeries data 20

/-- The `sma50` array computed in the `useEffect` (source lines 131-142). -/
def sma50 (data : List KlineData) : List IndicatorPoint :=
  smaSeries data 50

/-- The component state touched by the data-processing paths: the
candlestick series and the published current price (`currentPrice` starts
as `null`, hence `Option`).  The derived indicator arrays are carried too. -/
structure ChartState where
  candlestickData : List KlineData
  sma20Data : List IndicatorPoint
  sma50Data : List IndicatorPoint
  rsiData : List IndicatorPoint
  currentPrice : Option ℚ
  deriving DecidableEq, Inhabited

/-- The `useEffect` of lines 100-158: given fetched `marketData` it stores
the candles, recomputes `sma20`, `sma50` and `calculateRSI(data, 14)`, and
sets `currentPrice` to the last candle's close when the batch is non-empty
(leaving it unchanged otherwise). -/
def processMarketData (s : ChartState) (marketData : List KlineData) : ChartState :=
  { candlestickData := marketData
    sma20Data := sma20 marketData
    sma50Data := sma50 marketData
    rsiData := calculateRSI marketData 14
    currentPrice :=
      if 0 < marketData.length then
        some ((marketData.getD (marketData.length - 1) default).close)
      else s.currentPrice }

/-- A parsed WebSocket kline payload `message.k` (source lines 23-33), with
the string OHLCV fields already converted by `parseFloat`. -/
structure WsKline where
  t : ℤ
  o : ℚ
  h : ℚ
  l : ℚ
  c : ℚ
  v : ℚ
  x : Bool
  deriving DecidableEq

/-- The `ws.onmessage` handler (source lines 253-280): it sets
`currentPrice` to the event's close and, when the kline is closed and the
candlestick series is non-empty, requests a refetch.  It mutates no other
chart state.  Returns the new state together with the refetch request. -/
def applyWsMessage (s : ChartState) (m : WsKline) : ChartState × Bool :=
  ({ s with currentPrice := some m.c },
   m.x && decide (0 < s.candlestickData.length))

/-- The browser `Response` seen by `fetchMarketData`: `ok` status flag,
HTTP status, and the JSON body (`none` models a null payload). -/
structure ApiResponse where
  ok : Bool
  status : ℕ
  body : Option (List KlineData)

/-- The errors thrown by `fetchMarketData`. -/
inductive FetchError where
  | httpError (status : ℕ)
  | noData
  deriving DecidableEq

/-- `fetchMarketData` (source lines 36-67): throws on a non-ok response,
throws "No data received from API" when the parsed body is null or has
length 0, and otherwise returns the parsed candle array. -/
def fetchMarketData (resp : ApiResponse) : Except FetchError (List KlineData) :=
  if resp.ok = false then .error (.httpError resp.status)
  else
    match resp.body with
    | none => .error .noData
    | some data =>
      if data.length = 0 then .error .noData
      else .ok data

/-- One raw kline row from the upstream exchange API:
`[timestamp, open, high, low, close, volume]`.  The numeric string fields
are modelled by the rational value they denote, so `Number` and
`parseFloat` are value-preserving. -/
structure RawKline where
  timestamp : ℤ
  open_ : ℚ
  high : ℚ
  low : ℚ
  close : ℚ
  volume : ℚ
  deriving DecidableEq

/-- The element mapping of the route's `formattedData` (source lines
737-746): field-by-field conversion of one raw row into a `KlineData`. -/
def formatRow (r : RawKline) : KlineData :=
  { timestamp := r.timestamp, open_ := r.open_, high := r.high,
    low := r.low, close := r.close, volume := r.volume }

/-- The upstream fetch outcome seen inside the route's `try` block:
`ok`/`status` of the upstream response and its parsed rows (`none` models
a thrown fetch or JSON-parse error). -/
structure UpstreamResponse where
  ok : Bool
  status : ℕ
  rows : Option (List RawKline)

/-- What the route returns: an HTTP status and a JSON list of candles. -/
structure RouteResult where
  status : ℕ
  body : List KlineData
  deriving DecidableEq

/-- The api/market `GET` handler (source lines 719-753): a non-ok upstream
response throws inside the `try`, any thrown error is caught and answered
with `[]` at status 500; on success the rows are mapped element-wise by
`formatRow` and returned at status 200. -/
def GET (upstream : UpstreamResponse) : RouteResult :=
  if upstream.ok = false then { status := 500, body := [] }
  else
    match upstream.rows with
    | none => { status := 500, body := [] }
    | some rows => { status := 200, body := rows.map formatRow }

/-! ### Concrete inputs used in witnesses and examples -/

/-- A candle whose four prices all equal `c` (only `close` and `timestamp`
matter to the indicator code). -/
def mkCandle (ts : ℤ) (c : ℚ) : KlineData :=
  { timestamp := ts, open_ := c, high := c, low := c, close := c, volume := 0 }

/-- The spec's SMA example: 20 candles with closes `10, 11, ..., 29`. -/
def example20 : List KlineData :=
  (List.range 20).map (fun (i : ℕ) => mkCandle (i : ℤ) (10 + (i : ℚ)))

/-- 16 candles whose closes rise by a constant `d` each step:
`c, c+d, ..., c+15*d` — i.e. 15 consecutive price changes all equal to
`d`. -/
def steadyRise (c d : ℚ) : List KlineData :=
  (List.range 16).map (fun (i : ℕ) => mkCandle (i : ℤ) (c + (i : ℚ) * d))

/-- 50 candles with closes `10, ..., 59`. -/
def data50 : List KlineData :=
  (List.range 50).map (fun (i : ℕ) => mkCandle (i : ℤ) (10 + (i : ℚ)))

/-- A fetched batch of 20 candles in which, per the spec's data model, the
first 19 are closed and the 20th is the in-progress candle (close 1000,
still moving). -/
def batch20open : List KlineData :=
  (List.range 19).map (fun (i : ℕ) => mkCandle (i : ℤ) (10 + (i : ℚ))) ++ [mkCandle 19 1000]

/-! ### C8, C9: the streaming and batch state-update paths -/

/-- C8: applying the same streamed update event twice produces identical
chart state (in particular identical candle-series state) as applying it
once, and requests the same refetch — duplicate delivery is a no-op the
second time. -/
theorem applyWsMessage_idempotent (s : ChartState) (m : WsKline) :
    applyWsMessage (applyWsMessage s m).1 m = applyWsMessage s m := rfl

/-- C9: after processing a non-empty fetched batch the published current
price is the close of the final candle of the batch, and each streamed
update sets it to that event's close. -/
theorem currentPrice_last_close (s : ChartState) (data : List KlineData)
    (m : WsKline) (hne : data ≠ []) :
    (processMarketData s data).currentPrice = data.getLast?.map KlineData.close ∧
    (applyWsMessage s m).1.currentPrice = some m.c := by
  constructor
  · have hlen : 0 < data.length := List.length_pos.mpr hne
    simp only [processMarketData, if_pos hlen]
    rw [List.getLast?_eq_getElem?, List.getD_eq_getElem?_getD]
    rcases h : data[data.length - 1]? with _ | a
    · exact absurd (List.getElem?_eq_none_iff.mp h) (by omega)
    · simp
  · rfl

/-- Witness for C9 at a concrete batch and event. -/
theorem currentPrice_last_close_witness :
    (processMarketData default [mkCandle 0 7, mkCandle 1 9]).currentPrice =
      ([mkCandle 0 7, mkCandle 1 9].getLast?).map KlineData.close ∧
    (applyWsMessage default ⟨0, 1, 1, 1, 5, 0, false⟩).1.currentPrice = some 5 :=
  currentPrice_last_close default [mkCandle 0 7, mkCandle 1 9]
    ⟨0, 1, 1, 1, 5, 0, false⟩ (by simp)

/-! ### C6: fetchMarketData error behaviour -/

/-- C6: `fetchMarketData` throws for every non-ok HTTP response and for
every null or empty payload, and returns the parsed array exactly when the
response is ok and the array is non-empty. -/
theorem fetchMarketData_rejects_empty (resp : ApiResponse) :
    (resp.ok = false → fetchMarketData resp = .error (.httpError resp.status)) ∧
    (resp.body.getD [] = [] → ∃ e, fetchMarketData resp = .error e) ∧
    (∀ l, fetchMarketData resp = .ok l →
      resp.ok = true ∧ resp.body = some l ∧ l ≠ []) := by
  refine ⟨fun h => by simp [fetchMarketData, h], fun h => ?_, fun l h => ?_⟩
  · unfold fetchMarketData
    rcases hok : resp.ok with _ | _
    · exact ⟨.httpError resp.status, by simp⟩
    · rcases hb : resp.body with _ | data
      · exact ⟨.noData, by simp⟩
      · rw [hb] at h
        simp only [Option.getD_some] at h
        exact ⟨.noData, by simp [h]⟩
  · unfold fetchMarketData at h
    rcases hok : resp.ok with _ | _ <;> rw [hok] at h
    · simp at h
    · rcases hb : resp.body with _ | data <;> rw [hb] at h
      · simp at h
      · rcases data with _ | ⟨a, rest⟩
        · simp at h
        · simp at h
          exact ⟨rfl, by rw [h], by rw [← h]; simp⟩

/-- Witness for C6: a non-ok response and an ok-but-empty response both
error; a non-empty ok response returns its payload. -/
theorem fetchMarketData_rejects_empty_witness :
    fetchMarketData ⟨false, 500, some [mkCandle 0 1]⟩ = .error (.httpError 500) ∧
    (∃ e, fetchMarketData ⟨true, 200, some []⟩ = .error e) :=
  ⟨(fetchMarketData_rejects_empty ⟨false, 500, some [mkCandle 0 1]⟩).1 rfl,
   (fetchMarketData_rejects_empty ⟨true, 200, some []⟩).2.1 rfl⟩

/-! ### C10: the api/market GET route -/

/-- C10: the route handler always answers (status 200 or 500): on upstream
success it returns the order- and length-preserving element-wise mapping of
the rows with status 200, and on any upstream failure or thrown error it
returns an empty array with status 500. -/
theorem GET_route_contract (u : UpstreamResponse) :
    ((GET u).status = 200 ∨ (GET u).status = 500) ∧
    (∀ rows, u.ok = true → u.rows = some rows →
      GET u = { status := 200, body := rows.map formatRow } ∧
      (GET u).body.length = rows.length ∧
      ∀ i : ℕ, (GET u).body[i]? = (rows[i]?).map formatRow) ∧
    ((u.ok = false ∨ u.rows = none) → GET u = { status := 500, body := [] }) := by
  refine ⟨?_, fun rows hok hrows => ?_, fun h => ?_⟩
  · unfold GET
    rcases u.ok with _ | _ <;> simp
    rcases u.rows with _ | rows <;> simp
  · have : GET u = { status := 200, body := rows.map formatRow } := by
      simp [GET, hok, hrows]
    refine ⟨this, ?_, ?_⟩
    · rw [this]; simp
    · intro i; rw [this]; simp
  · unfold GET
    rcases h with h | h
    · simp [h]
    · rcases hok : u.ok with _ | _
      · simp
      · simp [h]

/-- Witness for C10: a successful upstream with one row maps to one
candle at status 200; a failed upstream yields `[]` at status 500. -/
theorem GET_route_contract_witness :
    GET ⟨true, 200, some [⟨5, 1, 2, 3, 4, 6⟩]⟩ =
      { status := 200, body := [⟨5, 1, 2, 3, 4, 6⟩] } ∧
    GET ⟨false, 404, none⟩ = { status := 500, body := [] } :=
  ⟨((GET_route_contract ⟨true, 200, some [⟨5, 1, 2, 3, 4, 6⟩]⟩).2.1
      [⟨5, 1, 2, 3, 4, 6⟩] rfl rfl).1,
   (GET_route_contract ⟨false, 404, none⟩).2.2 (Or.inl rfl)⟩

/-! ### C1: RSI stays in [0, 100] -/

/-- The RS divisor is strictly positive whenever the average loss is
non-negative: either the epsilon 0.001 or the positive loss itself. -/
theorem rsiDivisor_pos {l : ℚ} (hl : 0 ≤ l) : 0 < rsiDivisor l := by
  unfold rsiDivisor
  split
  · norm_num
  · exact lt_of_le_of_ne hl (Ne.symm (by assumption))

/-- For non-negative smoothed averages the computed RSI value lies in
[0, 100) — the bound comes out of the formula itself. -/
theorem rsiValue_bounds {g l : ℚ} (hg : 0 ≤ g) (hl : 0 ≤ l) :
    0 ≤ rsiValue g l ∧ rsiValue g l < 100 := by
  have hd : 0 < rsiDivisor l := rsiDivisor_pos hl
  have hr : 0 ≤ g / rsiDivisor l := div_nonneg hg hd.le
  unfold rsiValue
  constructor
  · have h1 : (100 : ℚ) / (1 + g / rsiDivisor l) ≤ 100 :=
      div_le_self (by norm_num) (by linarith)
    linarith
  · have h2 : (0 : ℚ) < 100 / (1 + g / rsiDivisor l) :=
      div_pos (by norm_num) (by linarith)
    linarith

/-- One Wilder smoothing step keeps both averages non-negative. -/
theorem rsiStep_nonneg {st : ℚ × ℚ} (hg : 0 ≤ st.1) (hl : 0 ≤ st.2) (c : ℚ) :
    0 ≤ (rsiStep 14 st c).1 ∧ 0 ≤ (rsiStep 14 st c).2 := by
  have hgain : (0 : ℚ) ≤ if c > 0 then c else 0 := by
    split
    · linarith
    · exact le_rfl
  have hloss : (0 : ℚ) ≤ if c < 0 then |c| else 0 := by
    split
    · exact abs_nonneg c
    · exact le_rfl
  unfold rsiStep
  constructor
  · apply div_nonneg _ (by norm_num)
    push_cast
    linarith
  · apply div_nonneg _ (by norm_num)
    push_cast
    linarith

/-- Every point emitted by the steady-state loop has its value in
[0, 100), as long as the incoming averages are non-negative. -/
theorem rsiRest_bounds (data : List KlineData) :
    ∀ (cs : List ℚ) (st : ℚ × ℚ) (i : ℕ), 0 ≤ st.1 → 0 ≤ st.2 →
      ∀ pt ∈ rsiRest 14 data cs st i, 0 ≤ pt.y ∧ pt.y < 100 := by
  intro cs
  induction cs with
  | nil => intro st i _ _ pt hpt; simp [rsiRest] at hpt
  | cons c cs ih =>
    intro st i hg hl pt hpt
    obtain ⟨hg', hl'⟩ := rsiStep_nonneg hg hl c
    rcases (List.mem_cons).mp hpt with h | h
    · subst h; exact rsiValue_bounds hg' hl'
    · exact ih (rsiStep 14 st c) (i + 1) hg' hl' pt h

/-- C1: every point of the RSI(14) output lies in the closed interval
[0, 100]; in fact the computation itself keeps it strictly below 100 —
the bound is produced by the epsilon substitution, not by clamping. -/
theorem rsi_within_bounds (data : List KlineData) (pt : IndicatorPoint)
    (hpt : pt ∈ calculateRSI data 14) : 0 ≤ pt.y ∧ pt.y ≤ 100 := by
  unfold calculateRSI at hpt
  split at hpt
  · simp at hpt
  · set changes := changesOf data with hch
    have hg : (0 : ℚ) ≤
        (((changes.take 14).map (fun c => if c > 0 then c else 0)).sum) / (14 : ℚ) := by
      apply div_nonneg _ (by norm_num)
      apply List.sum_nonneg
      intro q hq
      obtain ⟨c, _, rfl⟩ := List.mem_map.mp hq
      split
      · linarith
      · exact le_rfl
    have hl : (0 : ℚ) ≤
        (((changes.take 14).map (fun c => if c > 0 then 0 else |c|)).sum) / (14 : ℚ) := by
      apply div_nonneg _ (by norm_num)
      apply List.sum_nonneg
      intro q hq
      obtain ⟨c, _, rfl⟩ := List.mem_map.mp hq
      split
      · exact le_rfl
      · exact abs_nonneg c
    rcases (List.mem_cons).mp hpt with h | h
    · subst h
      obtain ⟨h0, h1⟩ := rsiValue_bounds hg hl
      exact ⟨h0, h1.le⟩
    · obtain ⟨h0, h1⟩ := rsiRest_bounds data _ _ _ hg hl pt h
      exact ⟨h0, h1.le⟩

/-- Witness for C1: the first RSI point of a concrete 16-candle rally is
within the bounds. -/
theorem rsi_within_bounds_witness :
    0 ≤ (⟨14, 100000 / 1001⟩ : IndicatorPoint).y ∧
      (⟨14, 100000 / 1001⟩ : IndicatorPoint).y ≤ 100 :=
  rsi_within_bounds (steadyRise 100 1) ⟨14, 100000 / 1001⟩ (by
    have h : calculateRSI (steadyRise 100 1) 14 =
        [⟨14, 100000 / 1001⟩, ⟨15, 100000 / 1001⟩] := by
      norm_num [calculateRSI, changesOf, rsiRest, rsiStep, rsiValue, rsiDivisor,
        steadyRise, mkCandle, List.range_succ]
    rw [h]
    simp)

/-! ### C3: the RSI algorithm matches the spec's description

The following definitions are written from the **spec's words** (Wilder's
smoothing, §4.2 of the spec), to be compared with `calculateRSI`, which was
translated from the source.  The spec describes the divisor rule of §4.2
("avgLoss == 0 → treat as a small positive epsilon") with the source's
epsilon 0.001. -/

/-- Spec wording: `gain = max(Δ, 0)`. -/
def specGain (d : ℚ) : ℚ := max d 0

/-- Spec wording: `loss = max(-Δ, 0)`. -/
def specLoss (d : ℚ) : ℚ := max (-d) 0

/-- Spec wording: `avgGain = (avgGain*(period-1) + gain) / period`,
`avgLoss` analogous. -/
def specAvgStep (period : ℕ) (st : ℚ × ℚ) (d : ℚ) : ℚ × ℚ :=
  ((st.1 * ((period : ℚ) - 1) + specGain d) / (period : ℚ),
   (st.2 * ((period : ℚ) - 1) + specLoss d) / (period : ℚ))

/-- Spec wording: `RS = avgGain / avgLoss` with `avgLoss == 0` treated as
the small positive epsilon, and `RSI = 100 - 100/(1+RS)`. -/
def specRSI (avgGain avgLoss : ℚ) : ℚ :=
  100 - 100 / (1 + avgGain / (if avgLoss = 0 then 0.001 else avgLoss))

/-- Spec wording, steady state: for each subsequent change apply the
recurrences and emit the RSI of the updated averages at the candle the
change leads to. -/
def specSteady (period : ℕ) (data : List KlineData) :
    List ℚ → ℚ × ℚ → ℕ → List IndicatorPoint
  | [], _, _ => []
  | d :: ds, st, i =>
    let st' := specAvgStep period st d
    { x := (data.getD (i + 1) default).timestamp,
      y := specRSI st'.1 st'.2 } :: specSteady period data ds st' (i + 1)

/-- Spec wording, seed phase: over the first `period` price changes among
the first `period+1` candles, average gain = mean of the positive changes
and average loss = mean of the absolute negative changes (equivalently the
means of `max(Δ,0)` and `max(-Δ,0)` over that window); the first RSI value
is emitted at index `period`, and the steady state follows. -/
def rsiSpecSeries (data : List KlineData) (period : ℕ) : List IndicatorPoint :=
  if data.length ≤ period then []
  else
    let changes := changesOf data
    let avgGain : ℚ := (((changes.take period).map specGain).sum) / (period : ℚ)
    let avgLoss : ℚ := (((changes.take period).map specLoss).sum) / (period : ℚ)
    { x := (data.getD period default).timestamp,
      y := specRSI avgGain avgLoss }
      :: specSteady period data (changes.drop period) (avgGain, avgLoss) period

theorem gain_if_eq_max (c : ℚ) : (if c > 0 then c else 0) = specGain c := by
  unfold specGain
  split
  · exact (max_eq_left (by linarith)).symm
  · exact (max_eq_right (by linarith)).symm

theorem seed_loss_if_eq_max (c : ℚ) : (if c > 0 then 0 else |c|) = specLoss c := by
  unfold specLoss
  split
  · exact (max_eq_right (by linarith)).symm
  · rw [abs_of_nonpos (by linarith)]
    exact (max_eq_left (by linarith)).symm

theorem step_loss_if_eq_max (c : ℚ) : (if c < 0 then |c| else 0) = specLoss c := by
  unfold specLoss
  split
  · rw [abs_of_nonpos (by linarith)]
    exact (max_eq_left (by linarith)).symm
  · exact (max_eq_right (by linarith)).symm

theorem rsiStep_eq_specAvgStep (period : ℕ) (st : ℚ × ℚ) (c : ℚ) :
    rsiStep period st c = specAvgStep period st c := by
  unfold rsiStep specAvgStep
  rw [gain_if_eq_max, step_loss_if_eq_max]

theorem rsiValue_eq_specRSI (g l : ℚ) : rsiValue g l = specRSI g l := rfl

theorem rsiRest_eq_specSteady (period : ℕ) (data : List KlineData) :
    ∀ (cs : List ℚ) (st : ℚ × ℚ) (i : ℕ),
      rsiRest period data cs st i = specSteady period data cs st i := by
  intro cs
  induction cs with
  | nil => intro st i; rfl
  | cons c cs ih =>
    intro st i
    unfold rsiRest specSteady
    rw [rsiStep_eq_specAvgStep]
    simp only [rsiValue_eq_specRSI, ih]

/-- C3: `calculateRSI` computes exactly the two-phase Wilder smoothing the
spec describes — seed averages as window means of `max(Δ,0)` and
`max(-Δ,0)`, first point at index `period`, then the steady-state
recurrences with `RSI = 100 - 100/(1+RS)`. -/
theorem calculateRSI_eq_spec (data : List KlineData) (period : ℕ) :
    calculateRSI data period = rsiSpecSeries data period := by
  unfold calculateRSI rsiSpecSeries
  split
  · rfl
  · have hg : ((changesOf data).take period).map (fun c => if c > 0 then c else 0) =
        ((changesOf data).take period).map specGain :=
      List.map_congr_left (fun c _ => gain_if_eq_max c)
    have hl : ((changesOf data).take period).map (fun c => if c > 0 then 0 else |c|) =
        ((changesOf data).take period).map specLoss :=
      List.map_congr_left (fun c _ => seed_loss_if_eq_max c)
    simp only [hg, hl, rsiValue_eq_specRSI, rsiRest_eq_specSteady]

/-! ### C7: indicators are absent before their minimum window -/

/-- The generic SMA loop emits exactly `length - (period-1)` points, the
first at absolute index `period - 1`. -/
theorem smaSeries_length (data : List KlineData) (period : ℕ) :
    (smaSeries data period).length = data.length - (period - 1) := by
  unfold smaSeries
  rw [List.length_map, List.length_range']

/-- C7: SMA(20) emits its first point at index 19 (nothing before),
SMA(50) at index 49, and RSI(14) is empty for inputs of length ≤ 14 and
otherwise starts at index 14 — no zero or null placeholders exist before
the windows fill. -/
theorem indicator_warmup (data : List KlineData) :
    ((sma20 data).length = data.length - 19) ∧
    (20 ≤ data.length →
      (sma20 data).head? = some ⟨(data.getD 19 default).timestamp,
        smaWindowSum data 20 19 / 20⟩) ∧
    ((sma50 data).length = data.length - 49) ∧
    (50 ≤ data.length →
      (sma50 data).head? = some ⟨(data.getD 49 default).timestamp,
        smaWindowSum data 50 49 / 50⟩) ∧
    (data.length ≤ 14 → calculateRSI data 14 = []) ∧
    (14 < data.length →
      ((calculateRSI data 14).map (fun p => p.x)).head? =
        some (data.getD 14 default).timestamp) := by
  refine ⟨smaSeries_length data 20, fun h => ?_, smaSeries_length data 50,
    fun h => ?_, fun h => ?_, fun h => ?_⟩
  · obtain ⟨k, hk⟩ : ∃ k, data.length - 19 = k + 1 := ⟨data.length - 20, by omega⟩
    unfold sma20 smaSeries
    rw [show (20 : ℕ) - 1 = 19 from rfl, hk, List.range'_succ, List.map_cons,
      List.head?_cons]
    norm_num
  · obtain ⟨k, hk⟩ : ∃ k, data.length - 49 = k + 1 := ⟨data.length - 50, by omega⟩
    unfold sma50 smaSeries
    rw [show (50 : ℕ) - 1 = 49 from rfl, hk, List.range'_succ, List.map_cons,
      List.head?_cons]
    norm_num
  · unfold calculateRSI
    rw [if_pos h]
  · unfold calculateRSI
    rw [if_neg (by omega)]
    rfl

/-- Witness for C7 at concrete inputs: a 50-candle series has its first
SMA(20) point at timestamp 19, its first SMA(50) point at timestamp 49,
its first RSI point at timestamp 14, and a 3-candle series has no RSI. -/
theorem indicator_warmup_witness :
    (sma20 data50).head? = some ⟨(data50.getD 19 default).timestamp,
      smaWindowSum data50 20 19 / 20⟩ ∧
    (sma50 data50).head? = some ⟨(data50.getD 49 default).timestamp,
      smaWindowSum data50 50 49 / 50⟩ ∧
    ((calculateRSI data50 14).map (fun p => p.x)).head? =
      some (data50.getD 14 default).timestamp ∧
    calculateRSI [mkCandle 0 1, mkCandle 1 2, mkCandle 2 3] 14 = [] := by
  have hlen : data50.length = 50 := by
    simp [data50]
  refine ⟨(indicator_warmup data50).2.1 (by rw [hlen]; omega),
    (indicator_warmup data50).2.2.2.1 (by rw [hlen]),
    (indicator_warmup data50).2.2.2.2.2 (by rw [hlen]; norm_num),
    (indicator_warmup [mkCandle 0 1, mkCandle 1 2, mkCandle 2 3]).2.2.2.2.1
      (by simp)⟩

/-! ### C2: SMA is the arithmetic mean of the trailing window -/

/-- A list sum over `List.range` is the matching `Finset.range` sum. -/
theorem list_range_map_sum (f : ℕ → ℚ) (n : ℕ) :
    ((List.range n).map f).sum = ∑ j ∈ Finset.range n, f j := by
  induction n with
  | zero => rfl
  | succ m ih => rw [List.range_succ, List.map_append, List.sum_append,
      Finset.sum_range_succ, ih]; simp

/-- The contiguous slice `drop a / take b` of a list, as a `range`-map. -/
theorem slice_eq_range_map (l : List KlineData) (a b : ℕ) (hab : a + b ≤ l.length) :
    (l.drop a).take b = (List.range b).map (fun j => l.getD (a + j) default) := by
  apply List.ext_getElem
  · rw [List.length_take, List.length_drop, List.length_map, List.length_range]
    omega
  · intro n h1 h2
    rw [List.length_take, List.length_drop] at h1
    rw [List.getElem_take, List.getElem_drop, List.getElem_map, List.getElem_range,
      List.getD_eq_getElem l default (by omega)]

/-- The backwards window sum of the SMA loop equals the sum over the
forward slice of the trailing `p` closes ending at index `i`. -/
theorem smaWindowSum_eq_slice (l : List KlineData) (p i : ℕ) (hp : 1 ≤ p)
    (hpi : p - 1 ≤ i) (hin : i < l.length) :
    smaWindowSum l p i = (((l.drop (i + 1 - p)).take p).map KlineData.close).sum := by
  rw [slice_eq_range_map l (i + 1 - p) p (by omega), List.map_map]
  unfold smaWindowSum
  rw [list_range_map_sum, list_range_map_sum]
  rw [← Finset.sum_range_reflect]
  apply Finset.sum_congr rfl
  intro j hj
  have hj' : j < p := Finset.mem_range.mp hj
  have e : i - (p - 1 - j) = i + 1 - p + j := by omega
  rw [e]
  simp [Function.comp]

/-- The point emitted by the SMA loop for absolute index `i` sits at
output position `i - (p-1)` and its value is the slice mean. -/
theorem smaSeries_getElem (data : List KlineData) (p i : ℕ) (hp : 1 ≤ p)
    (hpi : p - 1 ≤ i) (hin : i < data.length) :
    (smaSeries data p)[i - (p - 1)]? = some ⟨(data.getD i default).timestamp,
      (((data.drop (i + 1 - p)).take p).map KlineData.close).sum / (p : ℚ)⟩ := by
  unfold smaSeries
  rw [List.getElem?_map]
  have hm : i - (p - 1) < data.length - (p - 1) := by omega
  rw [List.getElem?_range' (p - 1) 1 hm]
  simp only [Option.map_some', one_mul]
  have hip : p - 1 + (i - (p - 1)) = i := by omega
  rw [hip, smaWindowSum_eq_slice data p i hp hpi hin]

/-- C2: for `period-1 ≤ i < n` the SMA value emitted at candle index `i`
is the arithmetic mean of the closes at indices `i-period+1 .. i` (for
both SMA(20) and SMA(50)); and on closes `10,...,29` the single SMA(20)
point equals 19.5. -/
theorem sma_trailing_mean :
    (∀ (data : List KlineData) (i : ℕ), 19 ≤ i → i < data.length →
      (sma20 data)[i - 19]? = some ⟨(data.getD i default).timestamp,
        (((data.drop (i - 19)).take 20).map KlineData.close).sum / 20⟩) ∧
    (∀ (data : List KlineData) (i : ℕ), 49 ≤ i → i < data.length →
      (sma50 data)[i - 49]? = some ⟨(data.getD i default).timestamp,
        (((data.drop (i - 49)).take 50).map KlineData.close).sum / 50⟩) ∧
    (sma20 example20).map (fun p => p.y) = [39 / 2] := by
  refine ⟨fun data i h1 h2 => ?_, fun data i h1 h2 => ?_, ?_⟩
  · have h := smaSeries_getElem data 20 i (by norm_num) (by omega) h2
    have e : i + 1 - 20 = i - 19 := by omega
    rw [e] at h
    exact h
  · have h := smaSeries_getElem data 50 i (by norm_num) (by omega) h2
    have e : i + 1 - 50 = i - 49 := by omega
    rw [e] at h
    exact h
  · norm_num [sma20, smaSeries, smaWindowSum, example20, mkCandle,
      List.range_succ, List.range']

/-- Witness for C2: the first SMA(20) point of the `10..29` series is the
mean of its 20 closes. -/
theorem sma_trailing_mean_witness :
    (sma20 example20)[0]? = some ⟨(example20.getD 19 default).timestamp,
      (((example20.drop 0).take 20).map KlineData.close).sum / 20⟩ := by
  have h := sma_trailing_mean.1 example20 19 (by norm_num) (by simp [example20])
  simpa using h

/-! ### C4: the epsilon substitution keeps RSI defined, and saturation -/

/-- C4 counterexample: with 15 consecutive positive-only changes of equal
magnitude 1/10000, every emitted RSI value is 100/11 (≈ 9.09), nowhere
near 100 — the fixed 0.001 epsilon floor dominates small gains, so the
claim "RSI close to 100 for every positive Δ" fails. -/
theorem rsi_small_delta_not_near_100 :
    (calculateRSI (steadyRise 100 (1 / 10000)) 14).length = 2 ∧
    ∀ pt ∈ calculateRSI (steadyRise 100 (1 / 10000)) 14, pt.y < 10 := by
  have h : calculateRSI (steadyRise 100 (1 / 10000)) 14 =
      [⟨14, 100 / 11⟩, ⟨15, 100 / 11⟩] := by
    norm_num [calculateRSI, changesOf, rsiRest, rsiStep, rsiValue, rsiDivisor,
      steadyRise, mkCandle, List.range_succ]
  rw [h]
  refine ⟨rfl, ?_⟩
  intro pt hpt
  simp only [List.mem_cons, List.not_mem_nil, or_false] at hpt
  rcases hpt with h1 | h1 <;> subst h1 <;> norm_num

/-- C4 (amended): whenever the smoothed average loss is zero the RSI code
divides by the positive constant 0.001 instead, so RS is always a ratio
with a positive denominator (never NaN/∞); and for 15 consecutive
positive-only changes of equal magnitude d the averages stay on the
epsilon floor and every emitted RSI value equals `100 - 100/(1 + 1000*d)`,
which exceeds 99.9 whenever d is at least 1. -/
theorem rsi_epsilon_saturates (c d : ℚ) (hd : 0 < d) :
    (∀ l : ℚ, 0 ≤ l → 0 < rsiDivisor l) ∧
    (calculateRSI (steadyRise c d) 14).map (fun p => p.y) =
      [100 - 100 / (1 + 1000 * d), 100 - 100 / (1 + 1000 * d)] ∧
    (1 ≤ d → ∀ pt ∈ calculateRSI (steadyRise c d) 14, (999 : ℚ) / 10 < pt.y) := by
  have hch : changesOf (steadyRise c d) = List.replicate 15 d := by
    simp only [steadyRise, List.range_succ, List.map_append, List.map_cons,
      List.map_nil, List.range_zero, List.nil_append, List.cons_append,
      changesOf, mkCandle, List.replicate]
    norm_num
    repeat' apply And.intro
    all_goals ring
  have hlen : (steadyRise c d).length = 16 := by simp [steadyRise]
  have hmain : (calculateRSI (steadyRise c d) 14).map (fun p => p.y) =
      [100 - 100 / (1 + 1000 * d), 100 - 100 / (1 + 1000 * d)] := by
    unfold calculateRSI
    rw [if_neg (by omega)]
    simp only [hch]
    have htake : (List.replicate 15 d).take 14 = List.replicate 14 d :=
      by simp [List.take_replicate]
    have hdrop : (List.replicate 15 d).drop 14 = [d] := by
      simp [List.drop_replicate]
    rw [htake, hdrop]
    have hgain : ((List.replicate 14 d).map (fun c => if c > 0 then c else 0)).sum
        = 14 * d := by
      simp [List.map_replicate, if_pos hd, List.sum_replicate]
      ring
    have hloss : ((List.replicate 14 d).map (fun c => if c > 0 then 0 else |c|)).sum
        = 0 := by
      simp [List.map_replicate, if_pos hd, List.sum_replicate]
    rw [hgain, hloss]
    have havg : (14 : ℚ) * d / (14 : ℕ) = d := by
      push_cast
      field_simp
    have hz : (0 : ℚ) / (14 : ℕ) = 0 := by simp
    rw [havg, hz]
    have hval : rsiValue d 0 = 100 - 100 / (1 + 1000 * d) := by
      unfold rsiValue rsiDivisor
      rw [if_pos rfl]
      have h1 : d / (0.001 : ℚ) = 1000 * d := by
        rw [show (0.001 : ℚ) = 1 / 1000 by norm_num]
        field_simp
        ring
      rw [h1]
    have hstep : rsiStep 14 (d, 0) d = (d, 0) := by
      unfold rsiStep
      rw [if_pos hd, if_neg (by linarith)]
      push_cast
      simp only [Prod.mk.injEq]
      constructor
      · field_simp
        ring
      · norm_num
    simp only [rsiRest, hstep, hval, List.map_cons, List.map_nil]
  refine ⟨fun l hl => rsiDivisor_pos hl, hmain, fun hd1 pt hpt => ?_⟩
  have hy : pt.y ∈ (calculateRSI (steadyRise c d) 14).map (fun p => p.y) :=
    List.mem_map_of_mem _ hpt
  rw [hmain] at hy
  simp only [List.mem_cons, List.not_mem_nil, or_false, or_self] at hy
  have hpos : (0 : ℚ) < 1 + 1000 * d := by linarith
  have hle : (100 : ℚ) / (1 + 1000 * d) ≤ 100 / 1001 := by
    rw [div_le_div_iff₀ hpos (by norm_num)]
    nlinarith
  rw [hy]
  have : (100 : ℚ) / 1001 < 1 / 10 := by norm_num
  linarith

/-- Witness for C4 (amended) at `c = 100`, `d = 1`: both emitted values
equal `100 - 100/1001` and exceed 99.9. -/
theorem rsi_epsilon_saturates_witness :
    (calculateRSI (steadyRise 100 1) 14).map (fun p => p.y) =
      [100 - 100 / (1 + 1000 * 1), 100 - 100 / (1 + 1000 * 1)] :=
  (rsi_epsilon_saturates 100 1 (by norm_num)).2.1

/-! ### C5: the in-progress candle does contribute to the indicators

The fetched `KlineData` has no closed/open flag (the only closed flag in
the source is the WebSocket `k.x` field), and the indicator `useEffect`
maps over the entire fetched array.  Per the spec's data model the final
candle of a fetched batch is the in-progress one; `batch20open` models a
batch of 19 closed candles plus an open 20th. -/

/-- C5 evaluation: with 19 closed candles and an in-progress 20th candle
of close 1000, the code emits an SMA(20) point whose value
`1361/20 = 68.05` averages the open candle's close in — while over the 19
closed candles alone it would emit nothing.  The open candle therefore
contributes to published indicator points. -/
theorem sma20_uses_open_candle :
    sma20 batch20open = [{ x := 19, y := 1361 / 20 }] ∧
    sma20 (batch20open.take 19) = [] := by
  constructor
  · norm_num [sma20, smaSeries, smaWindowSum, batch20open, mkCandle,
      List.range_succ, List.range']
  · have h : (batch20open.take 19).length = 19 := by
      simp [batch20open]
    unfold sma20 smaSeries
    rw [h]
    rfl
